import Mathlib

/-!
Verification of the EquiLedger AI copilot core against its specification.

The TypeScript sources are shallowly embedded: monetary values are modelled as
rationals (the spec asks for exact decimal arithmetic before display rounding),
database state is an explicit record of lists, and each handler becomes a pure
function from state and parameters to state and result.  Effectful external
calls (the language-model call, step execution outcomes in the workflow engine)
are passed in as explicit arguments.
-/

namespace EquiLedger

/-! ## Decimal rendering of invoice counters

The sources build invoice numbers with the JavaScript expression
String(count + 1).padStart(4, ...) with a zero pad character, with an
INV- text in front.  We embed decimal rendering with a fuel-based digit
extraction so that concrete instances reduce by rfl. -/

/-- Little-endian decimal digits of a number; fuel bounds the recursion and is
sufficient whenever fuel is at least the number. Returns the empty list for 0,
as digit extraction of 0 produces no digits. -/
def digitsAux : ℕ → ℕ → List ℕ
  | 0, _ => []
  | _ + 1, 0 => []
  | fuel + 1, n + 1 => ((n + 1) % 10) :: digitsAux fuel ((n + 1) / 10)

/-- The character for a single decimal digit. -/
def digitChar (d : ℕ) : Char := Char.ofNat (48 + d)

/-- Embedding of the JavaScript String(n) conversion for a nonnegative
integer: its decimal digit string. -/
def natToString (n : ℕ) : String :=
  if n = 0 then "0" else String.mk (((digitsAux n n).reverse).map digitChar)

/-- Embedding of JavaScript padStart: left-pad to the target length with
the pad character (no change when the string is already long enough). -/
def padStart (s : String) (len : ℕ) (c : Char) : String :=
  String.mk (List.replicate (len - s.data.length) c ++ s.data)

/-- Invoice number for a user whose current invoice count is count:
the code formats count + 1, zero-padded to 4 digits, after INV-.
Both create-invoice entry points use this same expression. -/
def mkInvoiceNumber (n : ℕ) : String :=
  "INV-" ++ padStart (natToString n) 4 (Char.ofNat 48)

/-- Value read back from a big-endian list of digit characters, as a decimal
parser folding left. -/
def charsVal (l : List Char) : ℕ :=
  l.foldl (fun a c => a * 10 + (c.toNat - 48)) 0

/-- Value of a little-endian digit list. -/
def digitsVal (l : List ℕ) : ℕ :=
  l.foldr (fun d a => a * 10 + d) 0

/-- Reading the numeric part back from an invoice number string. -/
def invoiceNumberVal (s : String) : ℕ := charsVal (s.data.drop 4)

/-! ## Ledger data model

The persistent store (drizzle tables in src/lib/db/schema.ts) is embedded as an
explicit record of lists; database-generated row ids are modelled by a counter.
Monetary columns are rationals.  Dates enter the claims only through the
dueInDays parameter and the paidAt marker, so the invoice row stores dueInDays
and an abstract paidAt timestamp. -/

inductive InvoiceStatus
  | DRAFT | SENT | PAID | OVERDUE | CANCELLED
  deriving DecidableEq

structure Client where
  id : ℕ
  userId : String
  name : String
  deriving DecidableEq

structure Invoice where
  id : ℕ
  userId : String
  clientId : ℕ
  invoiceNumber : String
  vatIncluded : Bool
  vatRate : ℚ
  status : InvoiceStatus
  dueInDays : ℚ
  paidAt : Option ℕ
  deriving DecidableEq

structure InvoiceItem where
  invoiceId : ℕ
  description : String
  quantity : ℚ
  unitPrice : ℚ
  lineTotal : ℚ
  deriving DecidableEq

structure Payment where
  invoiceId : ℕ
  amount : ℚ
  method : String
  deriving DecidableEq

structure DB where
  users : List String
  clients : List Client
  invoices : List Invoice
  invoiceItems : List InvoiceItem
  payments : List Payment
  nextId : ℕ
  deriving DecidableEq

/-- The select-then-count query both create-invoice entry points run:
all invoices whose userId column matches. -/
def countInvoices (db : DB) (userId : String) : ℕ :=
  (db.invoices.filter (fun i => i.userId == userId)).length

/-! ## Financial calculator (src/lib/ai/service.ts, createInvoice lines 85-95)

The code computes with the literal rate 0.15; the arithmetic expressions are
embedded with the rate as an argument so the algebraic claims can quantify
over it. -/

def defaultVatRate : ℚ := 15 / 100

/-- subtotal = vatIncluded ? amount / (1 + vatRate) : amount -/
def invoiceSubtotal (vatIncluded : Bool) (vatRate amount : ℚ) : ℚ :=
  if vatIncluded then amount / (1 + vatRate) else amount

/-- vatAmount = vatIncluded ? amount - subtotal : amount * vatRate -/
def invoiceVat (vatIncluded : Bool) (vatRate amount : ℚ) : ℚ :=
  if vatIncluded then amount - invoiceSubtotal vatIncluded vatRate amount
  else amount * vatRate

/-- total = vatIncluded ? amount : amount + vatAmount -/
def invoiceTotal (vatIncluded : Bool) (vatRate amount : ℚ) : ℚ :=
  if vatIncluded then amount else amount + invoiceVat vatIncluded vatRate amount

/-! ## AIService.createInvoice (src/lib/ai/service.ts)

The zod schema CreateInvoiceSchema accepts any strings for clientName and
description, requires amount and a supplied dueInDays to be positive numbers,
and defaults dueInDays to 30 and vatIncluded to true.  The handler catches
every thrown error (schema rejection, missing user) and turns it into a
success-false message. -/

structure CreateInvoiceParams where
  clientName : String
  amount : ℚ
  description : String
  dueInDays : Option ℚ
  vatIncluded : Option Bool
  deriving DecidableEq

structure CreateInvoiceValid where
  clientName : String
  amount : ℚ
  description : String
  dueInDays : ℚ
  vatIncluded : Bool
  deriving DecidableEq

/-- CreateInvoiceSchema.parse: none models a thrown ZodError. -/
def createInvoiceParse (p : CreateInvoiceParams) : Option CreateInvoiceValid :=
  if 0 < p.amount ∧ 0 < p.dueInDays.getD 30 then
    some ⟨p.clientName, p.amount, p.description, p.dueInDays.getD 30, p.vatIncluded.getD true⟩
  else none

/-- Look up the client row for (userId, name), inserting one when absent. -/
def getOrCreateClient (db : DB) (userId name : String) : DB × ℕ :=
  match (db.clients.filter (fun c => c.userId == userId && c.name == name)).head? with
  | some c => (db, c.id)
  | none =>
      ({ db with clients := db.clients ++ [⟨db.nextId, userId, name⟩],
                 nextId := db.nextId + 1 }, db.nextId)

inductive CreateInvoiceResult
  | ok (invoiceId : ℕ) (invoiceNumber : String) (subtotal vatAmount total : ℚ)
  | err (message : String)
  deriving DecidableEq

def CreateInvoiceResult.isOk : CreateInvoiceResult → Bool
  | .ok _ _ _ _ _ => true
  | .err _ => false

def createInvoiceFailMessage : String :=
  "Sorry, there was an error creating your invoice. Please try again."

/-- AIService.createInvoice: validate, check the user row, resolve the client,
split VAT, allocate the next invoice number from the current count, insert the
invoice (status DRAFT, rate snapshot 0.15) and its single item whose unitPrice
and lineTotal are the computed subtotal. -/
def aiCreateInvoice (db : DB) (userId : String) (params : CreateInvoiceParams) :
    DB × CreateInvoiceResult :=
  match createInvoiceParse params with
  | none => (db, .err createInvoiceFailMessage)
  | some v =>
      if userId ∈ db.users then
        let dbc := getOrCreateClient db userId v.clientName
        let subtotal := invoiceSubtotal v.vatIncluded defaultVatRate v.amount
        let vatAmount := invoiceVat v.vatIncluded defaultVatRate v.amount
        let total := invoiceTotal v.vatIncluded defaultVatRate v.amount
        let invoiceNumber := mkInvoiceNumber (countInvoices dbc.1 userId + 1)
        let invId := dbc.1.nextId
        let db2 : DB :=
          { dbc.1 with
            invoices := dbc.1.invoices ++
              [⟨invId, userId, dbc.2, invoiceNumber, v.vatIncluded, defaultVatRate,
                .DRAFT, v.dueInDays, none⟩],
            invoiceItems := dbc.1.invoiceItems ++
              [⟨invId, v.description, 1, subtotal, subtotal⟩],
            nextId := dbc.1.nextId + 1 }
        (db2, .ok invId invoiceNumber subtotal vatAmount total)
      else (db, .err createInvoiceFailMessage)

/-! ## WorkflowEngine.executeCreateInvoice (workflow module)

Its step schema has no positivity checks and no vatIncluded field; the step
always stores an inclusive-rate invoice.  A missing user is a thrown error,
which the engine later classifies. -/

structure WfCreateInvoiceParams where
  userId : String
  clientName : String
  amount : ℚ
  description : String
  dueInDays : Option ℚ
  deriving DecidableEq

structure WfCreateInvoiceOk where
  invoiceId : ℕ
  invoiceNumber : String
  clientName : String
  amount : ℚ
  deriving DecidableEq

def wfExecuteCreateInvoice (db : DB) (step : WfCreateInvoiceParams) :
    DB × Except String WfCreateInvoiceOk :=
  if step.userId ∈ db.users then
    let dbc := getOrCreateClient db step.userId step.clientName
    let subtotal := step.amount / (1 + defaultVatRate)
    let invoiceNumber := mkInvoiceNumber (countInvoices dbc.1 step.userId + 1)
    let invId := dbc.1.nextId
    let db2 : DB :=
      { dbc.1 with
        invoices := dbc.1.invoices ++
          [⟨invId, step.userId, dbc.2, invoiceNumber, true, defaultVatRate,
            .DRAFT, step.dueInDays.getD 30, none⟩],
        invoiceItems := dbc.1.invoiceItems ++
          [⟨invId, step.description, 1, subtotal, subtotal⟩],
        nextId := dbc.1.nextId + 1 }
    (db2, Except.ok ⟨invId, invoiceNumber, step.clientName, step.amount⟩)
  else (db, Except.error "User not found")

/-! ## Mark-paid route (src/app/api/invoices/[id]/mark-paid/route.ts) -/

inductive MarkPaidResult
  | notFound
  | alreadyPaid
  | ok (amount : ℚ)
  deriving DecidableEq

/-- POST mark-paid: select the invoice by id and owning user; 404 when absent;
400 already-paid when its status is PAID; otherwise recompute the total from
the line items, set status PAID with paidAt, and append one Payment row. -/
def markPaid (db : DB) (invoiceId : ℕ) (userId : String) (now : ℕ) :
    DB × MarkPaidResult :=
  match (db.invoices.filter (fun i => i.id == invoiceId && i.userId == userId)).head? with
  | none => (db, .notFound)
  | some inv =>
      if inv.status = InvoiceStatus.PAID then (db, .alreadyPaid)
      else
        let items := db.invoiceItems.filter (fun it => it.invoiceId == invoiceId)
        let subtotal := (items.map (fun it => it.lineTotal)).sum
        let vatAmount :=
          if inv.vatIncluded then subtotal * (inv.vatRate / (1 + inv.vatRate))
          else subtotal * inv.vatRate
        let total := if inv.vatIncluded then subtotal else subtotal + vatAmount
        let db2 : DB :=
          { db with
            invoices := db.invoices.map (fun i =>
              if i.id == invoiceId then { i with status := .PAID, paidAt := some now } else i),
            payments := db.payments ++ [⟨invoiceId, total, "Manual"⟩] }
        (db2, .ok total)

/-! ## Financial summary and health margin

generateFinancialSummary and the health analysis both reduce the rows their
queries return; the rows enter the embedding as the list of joined lineTotal
values and the list of expense amounts. -/

structure FinSummary where
  revenueTotal : ℚ
  revenueInvoiceCount : ℕ
  expensesTotal : ℚ
  expensesCount : ℕ
  netProfit : ℚ
  margin : ℚ
  deriving DecidableEq

/-- WorkflowEngine.generateFinancialSummary: totals by reduce, net profit,
and margin guarded to 0 when revenue is not positive. -/
def generateFinancialSummary (paidLineTotals expenseAmounts : List ℚ) : FinSummary :=
  let totalRevenue := paidLineTotals.sum
  let totalExpenses := expenseAmounts.sum
  let netProfit := totalRevenue - totalExpenses
  { revenueTotal := totalRevenue, revenueInvoiceCount := paidLineTotals.length,
    expensesTotal := totalExpenses, expensesCount := expenseAmounts.length,
    netProfit := netProfit,
    margin := if 0 < totalRevenue then netProfit / totalRevenue * 100 else 0 }

/-- profitMargin of analyzeFinancialHealth in src/lib/ai/advanced-service.ts:
the same guarded formula over its own query results. -/
def analyzeHealthProfitMargin (paidLineTotals expenseAmounts : List ℚ) : ℚ :=
  let totalRevenue := paidLineTotals.sum
  let totalExpenses := expenseAmounts.sum
  let netProfit := totalRevenue - totalExpenses
  if 0 < totalRevenue then netProfit / totalRevenue * 100 else 0

/-! ## AIService.processQuery

The generateObject call to the language model is external; it enters the
embedding as its outcome, an Except value.  The catch branch of processQuery
returns the fixed HELP fallback. -/

structure IntentResult where
  intent : String
  confidence : ℚ
  parameters : List (String × String)
  response : String
  actions : List String
  deriving DecidableEq

def helpFallback : IntentResult :=
  { intent := "HELP", confidence := 0, parameters := [],
    response := "I had trouble understanding your request. Please try again.",
    actions := [] }

def processQuery (llmOutcome : Except String IntentResult) : IntentResult :=
  match llmOutcome with
  | Except.ok r => r
  | Except.error _ => helpFallback

/-! ## Workflow engine (execute loop)

The per-step handler calls are external effects from the point of view of the
loop; they enter as a behavior function giving the outcome of step i on its
attempt k (attempts are counted by the retryCount the loop maintains).  The
results and errors objects keyed step_i become maps from the index; the ghost
delays field records every argument passed to this.delay, in order. -/

def maxRetries : ℕ := 3

def setStep {α : Type} (m : ℕ → Option α) (k : ℕ) (v : α) : ℕ → Option α :=
  fun j => if j = k then some v else m j

structure EngineState (α : Type) where
  currentStep : ℕ
  retryCount : ℕ
  results : ℕ → Option α
  errors : ℕ → Option String
  delays : List ℕ

structure ExecOutput (α : Type) where
  success : Bool
  results : ℕ → Option α
  errors : ℕ → Option String
  completedSteps : ℕ
  delays : List ℕ

/-- Lower-casing as in JavaScript toLowerCase for the ASCII error texts. -/
def strToLower (s : String) : String := String.mk (s.data.map Char.toLower)

/-- Substring search over character lists, the includes check. -/
def containsSub (l pat : List Char) : Bool :=
  match l with
  | [] => pat.isEmpty
  | c :: t => pat.isPrefixOf (c :: t) || containsSub t pat

def strIncludes (s pat : String) : Bool := containsSub s.data pat.data

/-- isRetriableError: the lower-cased message mentions a transient signal.
Thrown values that are not Error instances are classified fatal by the code;
the embedding carries thrown errors as their message strings. -/
def isRetriableError (msg : String) : Bool :=
  let m := strToLower msg
  strIncludes m "timeout" || strIncludes m "network" ||
    strIncludes m "connection" || strIncludes m "rate limit"

/-- The while loop of WorkflowEngine.execute, fuel-indexed so concrete runs
reduce.  On success: record the result, advance, reset retryCount.  On a
retriable failure: record the error, bump retryCount, delay 1000 * retryCount.
On a fatal failure: record the error and stop. -/
def engineRun {α : Type} (behavior : ℕ → ℕ → Except String α) (numSteps : ℕ) :
    ℕ → EngineState α → EngineState α
  | 0, st => st
  | fuel + 1, st =>
      if st.currentStep < numSteps ∧ st.retryCount < maxRetries then
        match behavior st.currentStep st.retryCount with
        | Except.ok v =>
            engineRun behavior numSteps fuel
              { currentStep := st.currentStep + 1, retryCount := 0,
                results := setStep st.results st.currentStep v,
                errors := st.errors, delays := st.delays }
        | Except.error msg =>
            let errs := setStep st.errors st.currentStep msg
            if isRetriableError msg then
              engineRun behavior numSteps fuel
                { st with errors := errs, retryCount := st.retryCount + 1,
                          delays := st.delays ++ [1000 * (st.retryCount + 1)] }
            else
              { st with errors := errs }
      else st

def initEngineState (α : Type) : EngineState α :=
  { currentStep := 0, retryCount := 0, results := fun _ => none,
    errors := fun _ => none, delays := [] }

/-- Enough fuel for any run: each iteration strictly decreases
(numSteps - currentStep) * maxRetries + (maxRetries - retryCount). -/
def engineFuel (numSteps : ℕ) : ℕ := numSteps * maxRetries + maxRetries + 1

/-- WorkflowEngine.execute: run the loop, then report overall success
(all steps completed), the accumulated maps, and the completed-step count. -/
def executeWorkflow {α : Type} (behavior : ℕ → ℕ → Except String α)
    (numSteps : ℕ) : ExecOutput α :=
  let st := engineRun behavior numSteps (engineFuel numSteps) (initEngineState α)
  { success := st.currentStep == numSteps, results := st.results,
    errors := st.errors, completedSteps := st.currentStep, delays := st.delays }

/-! ## Sequential creation and concrete scenario data -/

/-- N sequential calls of AIService.createInvoice with the same parameters,
threading the store; collects each call result in order. -/
def aiCreateSeq (userId : String) (p : CreateInvoiceParams) :
    ℕ → DB → DB × List CreateInvoiceResult
  | 0, db => (db, [])
  | n + 1, db =>
      let r := aiCreateInvoice db userId p
      let rest := aiCreateSeq userId p n r.1
      (rest.1, r.2 :: rest.2)

/-- N sequential runs of the create_invoice workflow step. -/
def wfCreateSeq (step : WfCreateInvoiceParams) :
    ℕ → DB → DB × List (Except String WfCreateInvoiceOk)
  | 0, db => (db, [])
  | n + 1, db =>
      let r := wfExecuteCreateInvoice db step
      let rest := wfCreateSeq step n r.1
      (rest.1, r.2 :: rest.2)

def CreateInvoiceResult.number : CreateInvoiceResult → Option String
  | .ok _ num _ _ _ => some num
  | .err _ => none

def wfNumber : Except String WfCreateInvoiceOk → Option String
  | Except.ok r => some r.invoiceNumber
  | Except.error _ => none

/-- An empty store holding one user row. -/
def freshDb (u : String) : DB :=
  { users := [u], clients := [], invoices := [], invoiceItems := [],
    payments := [], nextId := 0 }

/-- A store holding one already-PAID invoice of user u1 with one item and its
payment row. -/
def paidDb : DB :=
  { users := ["u1"],
    clients := [⟨0, "u1", "ABC Company"⟩],
    invoices := [⟨1, "u1", 0, "INV-0001", true, 15 / 100, .PAID, 30, some 0⟩],
    invoiceItems := [⟨1, "website design", 1, 100, 100⟩],
    payments := [⟨1, 100, "Manual"⟩],
    nextId := 2 }

/-- A store holding one DRAFT VAT-inclusive invoice of user u1 with one item. -/
def draftDb : DB :=
  { users := ["u1"],
    clients := [⟨0, "u1", "ABC Company"⟩],
    invoices := [⟨1, "u1", 0, "INV-0001", true, 15 / 100, .DRAFT, 30, none⟩],
    invoiceItems := [⟨1, "website design", 1, 100, 100⟩],
    payments := [],
    nextId := 2 }

/-- Scenario: three steps; step index 1 throws a retriable error on its first
two attempts and succeeds on the third; the other steps succeed at once. -/
def behRetryThenOk : ℕ → ℕ → Except String ℕ
  | 1, 0 => Except.error "network error"
  | 1, 1 => Except.error "network error"
  | _, _ => Except.ok 0

/-- Scenario: three steps; step index 1 throws a fatal error. -/
def behFatalStep2 : ℕ → ℕ → Except String ℕ
  | 1, _ => Except.error "invalid parameters"
  | _, _ => Except.ok 0

/-- Scenario: every attempt of every step throws a timeout error. -/
def behAlwaysTimeout : ℕ → ℕ → Except String ℕ :=
  fun _ _ => Except.error "Request timeout"

/-! ## Properties of the decimal rendering -/

theorem digitsAux_lt_ten (fuel n : ℕ) : ∀ d ∈ digitsAux fuel n, d < 10 := by
  induction fuel generalizing n with
  | zero => intro d hd; simp [digitsAux] at hd
  | succ fuel ih =>
    intro d hd
    cases n with
    | zero => simp [digitsAux] at hd
    | succ m =>
      simp only [digitsAux, List.mem_cons] at hd
      rcases hd with h | h
      · subst h; exact Nat.mod_lt _ (by norm_num)
      · exact ih _ _ h

theorem digitsVal_digitsAux (fuel n : ℕ) (h : n ≤ fuel) :
    digitsVal (digitsAux fuel n) = n := by
  induction fuel generalizing n with
  | zero =>
    interval_cases n
    rfl
  | succ fuel ih =>
    cases n with
    | zero => rfl
    | succ m =>
      have hq : (m + 1) / 10 ≤ fuel := by
        have : (m + 1) / 10 < m + 1 := Nat.div_lt_self (Nat.succ_pos m) (by norm_num)
        omega
      simp only [digitsAux, digitsVal, List.foldr_cons]
      have := ih ((m + 1) / 10) hq
      simp only [digitsVal] at this
      rw [this]
      omega

theorem digitChar_toNat (d : ℕ) (h : d < 10) : (digitChar d).toNat = 48 + d := by
  interval_cases d <;> rfl

theorem charsVal_map_digitChar (l : List ℕ) (h : ∀ d ∈ l, d < 10) :
    charsVal ((l.reverse).map digitChar) = digitsVal l := by
  rw [charsVal, List.foldl_map, List.foldl_reverse]
  induction l with
  | nil => rfl
  | cons x t ih =>
    simp only [List.foldr_cons, digitsVal]
    rw [digitChar_toNat x (h x (List.mem_cons_self x t))]
    have ht := ih (fun d hd => h d (List.mem_cons_of_mem x hd))
    simp only [digitsVal] at ht
    rw [ht]
    omega

theorem charsVal_replicate_zero_append (k : ℕ) (l : List Char) :
    charsVal (List.replicate k (Char.ofNat 48) ++ l) = charsVal l := by
  induction k with
  | zero => rfl
  | succ k ih =>
    simpa [List.replicate_succ, charsVal, List.foldl_cons] using ih

theorem charsVal_padded (n : ℕ) :
    charsVal (padStart (natToString n) 4 (Char.ofNat 48)).data = n := by
  by_cases h0 : n = 0
  · subst h0; rfl
  · have hdata : (natToString n).data = ((digitsAux n n).reverse).map digitChar := by
      simp [natToString, h0]
    simp only [padStart, hdata]
    rw [charsVal_replicate_zero_append]
    rw [charsVal_map_digitChar _ (digitsAux_lt_ten n n)]
    exact digitsVal_digitsAux n n (le_refl n)

theorem invoiceNumberVal_mk (n : ℕ) : invoiceNumberVal (mkInvoiceNumber n) = n := by
  have hdata : (mkInvoiceNumber n).data =
      ('I' :: 'N' :: 'V' :: '-' :: []) ++ (padStart (natToString n) 4 (Char.ofNat 48)).data := rfl
  simp only [invoiceNumberVal, hdata]
  rw [List.drop_append_of_le_length (by simp)]
  simpa using charsVal_padded n

theorem mkInvoiceNumber_injective : Function.Injective mkInvoiceNumber := by
  intro a b hab
  have := congrArg invoiceNumberVal hab
  simpa [invoiceNumberVal_mk] using this

/-! ## Claim theorems -/

/-- C5: for every positive amount a and rate r in (0,1), the inclusive VAT
split of invoice creation satisfies subtotal + vat = a exactly over rational
arithmetic, and the exclusive split satisfies
total = subtotal + vat = a * (1 + r). -/
theorem vat_split_roundtrip (a r : ℚ) (ha : 0 < a) (hr0 : 0 < r) (hr1 : r < 1) :
    invoiceSubtotal true r a + invoiceVat true r a = a ∧
    invoiceTotal false r a = invoiceSubtotal false r a + invoiceVat false r a ∧
    invoiceTotal false r a = a * (1 + r) := by
  refine ⟨?_, ?_, ?_⟩ <;>
    simp only [invoiceSubtotal, invoiceVat, invoiceTotal, if_true, if_false,
      Bool.false_eq_true, ite_true, ite_false] <;> ring

/-- Witness for C5 at a = 500, r = 0.15. -/
theorem vat_split_roundtrip_witness :
    invoiceSubtotal true (15 / 100) 500 + invoiceVat true (15 / 100) 500 = 500 ∧
    invoiceTotal false (15 / 100) 500 =
      invoiceSubtotal false (15 / 100) 500 + invoiceVat false (15 / 100) 500 ∧
    invoiceTotal false (15 / 100) 500 = 500 * (1 + 15 / 100) :=
  vat_split_roundtrip 500 (15 / 100) (by norm_num) (by norm_num) (by norm_num)

/-- C8: whenever total revenue over the period is 0, both margin computations
return exactly 0, whatever the expense rows are; the guarded conditional never
divides by the zero revenue (rational arithmetic in the model, so no NaN or
Infinity value exists to propagate). -/
theorem margin_zero_when_no_revenue (paid exps : List ℚ) (h : paid.sum = 0) :
    (generateFinancialSummary paid exps).margin = 0 ∧
    analyzeHealthProfitMargin paid exps = 0 := by
  constructor <;> simp [generateFinancialSummary, analyzeHealthProfitMargin, h]

/-- Witness for C8: no paid rows, one expense of 450. -/
theorem margin_zero_when_no_revenue_witness :
    (generateFinancialSummary [] [450]).margin = 0 ∧
    analyzeHealthProfitMargin [] [450] = 0 :=
  margin_zero_when_no_revenue [] [450] rfl

/-- C10: when the underlying language-model call of processQuery fails, the
resolver returns intent HELP, confidence 0, empty parameters and the fixed
apology response instead of propagating the fault. -/
theorem processQuery_degrades_to_help (e : String) :
    processQuery (Except.error e) =
      { intent := "HELP", confidence := 0, parameters := [],
        response := "I had trouble understanding your request. Please try again.",
        actions := [] } := rfl

/-- Witness for C10 at a concrete failure message. -/
theorem processQuery_degrades_to_help_witness :
    processQuery (Except.error "rate limit exceeded") =
      { intent := "HELP", confidence := 0, parameters := [],
        response := "I had trouble understanding your request. Please try again.",
        actions := [] } :=
  processQuery_degrades_to_help "rate limit exceeded"

/-- C2: a mark-paid request for an invoice already in PAID status (looked up
with the owning user) leaves the whole store unchanged, so no Payment row is
created and status and paidAt stay as they were, and returns the distinct
already-paid conflict result. -/
theorem markPaid_conflict_on_already_paid (db : DB) (invoiceId : ℕ)
    (userId : String) (now : ℕ) (inv : Invoice)
    (hfind : (db.invoices.filter
        (fun i => i.id == invoiceId && i.userId == userId)).head? = some inv)
    (hpaid : inv.status = InvoiceStatus.PAID) :
    markPaid db invoiceId userId now = (db, MarkPaidResult.alreadyPaid) ∧
    MarkPaidResult.alreadyPaid ≠ MarkPaidResult.notFound ∧
    ∀ q : ℚ, MarkPaidResult.alreadyPaid ≠ MarkPaidResult.ok q := by
  refine ⟨?_, by simp, fun q => by simp⟩
  simp [markPaid, hfind, hpaid]

/-- Witness for C2 on the concrete paid store. -/
theorem markPaid_conflict_on_already_paid_witness :
    markPaid paidDb 1 "u1" 5 = (paidDb, MarkPaidResult.alreadyPaid) ∧
    MarkPaidResult.alreadyPaid ≠ MarkPaidResult.notFound ∧
    ∀ q : ℚ, MarkPaidResult.alreadyPaid ≠ MarkPaidResult.ok q :=
  markPaid_conflict_on_already_paid paidDb 1 "u1" 5
    ⟨1, "u1", 0, "INV-0001", true, 15 / 100, .PAID, 30, some 0⟩ rfl rfl

/-- C3: on three steps where step 2 fails with a retriable error twice and
succeeds on its third attempt, the engine reports completedSteps 3 and overall
success; where step 2 fails fatally it reports completedSteps 1, no overall
success, and the result of step 1 is still present. -/
theorem workflow_retry_and_fatal_scenarios :
    (executeWorkflow behRetryThenOk 3).completedSteps = 3 ∧
    (executeWorkflow behRetryThenOk 3).success = true ∧
    (executeWorkflow behFatalStep2 3).completedSteps = 1 ∧
    (executeWorkflow behFatalStep2 3).success = false ∧
    (executeWorkflow behFatalStep2 3).results 0 = some 0 := by
  decide

/-- C4 as evaluated on the code: a single-step workflow whose step always
throws a timeout error is retried with delays 1000, 2000, 3000 ms — linear in
the retry count, not the exponential base times 2 to the k the comment above
this.delay announces — and execution then stops with the step incomplete. -/
theorem workflow_backoff_linear_not_exponential :
    (executeWorkflow behAlwaysTimeout 1).delays = [1000 * 1, 1000 * 2, 1000 * 3] ∧
    (executeWorkflow behAlwaysTimeout 1).delays ≠ [1000 * 2 ^ 0, 1000 * 2 ^ 1, 1000 * 2 ^ 2] ∧
    (executeWorkflow behAlwaysTimeout 1).delays ≠ [1000 * 2 ^ 1, 1000 * 2 ^ 2, 1000 * 2 ^ 3] ∧
    (executeWorkflow behAlwaysTimeout 1).success = false ∧
    (executeWorkflow behAlwaysTimeout 1).completedSteps = 0 := by
  decide

/-- C7 counterexample: in the retry-then-succeed scenario the final output
holds, for step index 1, both a result and an error message, refuting the
claim that an index never appears in both maps. -/
theorem workflow_result_and_error_coexist :
    (executeWorkflow behRetryThenOk 3).results 1 = some 0 ∧
    (executeWorkflow behRetryThenOk 3).errors 1 = some "network error" ∧
    (executeWorkflow behRetryThenOk 3).completedSteps = 3 := by
  decide

theorem engineRun_invariants {α : Type} (beh : ℕ → ℕ → Except String α)
    (numSteps fuel : ℕ) (st : EngineState α)
    (h1 : st.currentStep ≤ numSteps)
    (h2 : ∀ i, i < st.currentStep → ∃ v, st.results i = some v) :
    (engineRun beh numSteps fuel st).currentStep ≤ numSteps ∧
    ∀ i, i < (engineRun beh numSteps fuel st).currentStep →
      ∃ v, (engineRun beh numSteps fuel st).results i = some v := by
  induction fuel generalizing st with
  | zero => exact ⟨h1, h2⟩
  | succ fuel ih =>
    rw [engineRun]
    split
    case isTrue hg =>
      cases hbeh : beh st.currentStep st.retryCount with
      | ok v =>
        refine ih _ hg.1 ?_
        show ∀ i, i < st.currentStep + 1 → ∃ w, setStep st.results st.currentStep v i = some w
        intro i hi
        by_cases hic : i = st.currentStep
        · exact ⟨v, by simp [setStep, hic]⟩
        · obtain ⟨w, hw⟩ := h2 i (by omega)
          exact ⟨w, by simp [setStep, hic, hw]⟩
      | error msg =>
        dsimp only
        split
        · exact ih _ h1 h2
        · exact ⟨h1, h2⟩
    case isFalse => exact ⟨h1, h2⟩

/-- C7 amended: the overall success flag is true exactly when every step
completed; at most numSteps steps complete; and every completed step keeps a
result in the results map (progress made so far is never discarded).  An index can
however appear in both maps: a step that failed retriably and later succeeded
leaves its last error message next to its result. -/
theorem workflow_output_invariants {α : Type} (beh : ℕ → ℕ → Except String α)
    (numSteps : ℕ) :
    ((executeWorkflow beh numSteps).success = true ↔
      (executeWorkflow beh numSteps).completedSteps = numSteps) ∧
    (executeWorkflow beh numSteps).completedSteps ≤ numSteps ∧
    ∀ i, i < (executeWorkflow beh numSteps).completedSteps →
      ∃ v, (executeWorkflow beh numSteps).results i = some v := by
  have h := engineRun_invariants beh numSteps (engineFuel numSteps)
    (initEngineState α) (by simp [initEngineState])
    (by intro i hi; simp [initEngineState] at hi)
  exact ⟨by simp [executeWorkflow], h.1, h.2⟩

/-- Witness applying the amended C7 theorem to the fatal-failure scenario. -/
theorem workflow_output_invariants_witness :
    (executeWorkflow behFatalStep2 3).completedSteps ≤ 3 :=
  (workflow_output_invariants behFatalStep2 3).2.1

/-- C9 counterexample: the handler accepts an empty clientName and an empty
description and creates the invoice, refuting the claimed non-empty
validation. -/
theorem createInvoice_accepts_empty_strings :
    ((aiCreateInvoice (freshDb "u1") "u1"
        { clientName := "", amount := 100, description := "",
          dueInDays := none, vatIncluded := none }).2).isOk = true := by
  decide

/-- C9 amended: the handler validates amount as strictly positive and
dueInDays as strictly positive with default 30, and a parameter map violating
these yields the success-false message with the store unchanged rather than a
thrown exception; clientName and description are accepted as arbitrary
strings, the empty string included. -/
theorem createInvoice_validation (db : DB) (u : String) (p : CreateInvoiceParams)
    (hbad : p.amount ≤ 0 ∨ p.dueInDays.getD 30 ≤ 0) :
    aiCreateInvoice db u p = (db, CreateInvoiceResult.err createInvoiceFailMessage) ∧
    ∀ q : CreateInvoiceParams, ∀ w : CreateInvoiceValid,
      createInvoiceParse q = some w →
        0 < w.amount ∧ 0 < w.dueInDays ∧
          (q.dueInDays = none → w.dueInDays = 30) ∧
          w.clientName = q.clientName ∧ w.description = q.description := by
  constructor
  · have hnone : createInvoiceParse p = none := by
      rw [createInvoiceParse, if_neg]
      rintro ⟨ha, hd⟩
      rcases hbad with h | h <;> linarith
    rw [aiCreateInvoice, hnone]
  · intro q w hq
    rw [createInvoiceParse] at hq
    split at hq
    case isTrue hc =>
      cases hq
      refine ⟨hc.1, hc.2, ?_, rfl, rfl⟩
      intro hnone
      simp [hnone]
    case isFalse => exact absurd hq (by simp)

/-- Witness for C9 amended at a negative amount. -/
theorem createInvoice_validation_witness :
    aiCreateInvoice (freshDb "u1") "u1"
      { clientName := "ABC Company", amount := -5, description := "web",
        dueInDays := none, vatIncluded := none } =
      (freshDb "u1", CreateInvoiceResult.err createInvoiceFailMessage) :=
  (createInvoice_validation (freshDb "u1") "u1"
    { clientName := "ABC Company", amount := -5, description := "web",
      dueInDays := none, vatIncluded := none } (Or.inl (by norm_num))).1

/-- C6: for a VAT-inclusive invoice, mark-paid recomputes the total as the
plain sum of the stored line totals with no VAT added, and the Payment row
carries that sum; composed with creation from a VAT-inclusive amount a, whose
single line total is stored as the exclusive subtotal a / (1 + 0.15), the
Payment amount is a / (1 + 0.15), not the inclusive amount a. -/
theorem markPaid_inclusive_pays_exvat (db : DB) (invoiceId : ℕ)
    (userId : String) (now : ℕ) (inv : Invoice) (a : ℚ)
    (hfind : (db.invoices.filter
        (fun i => i.id == invoiceId && i.userId == userId)).head? = some inv)
    (hnot : inv.status ≠ InvoiceStatus.PAID) (hinc : inv.vatIncluded = true)
    (ha : 0 < a) :
    ((markPaid db invoiceId userId now).1.payments = db.payments ++
      [⟨invoiceId,
        ((db.invoiceItems.filter (fun it => it.invoiceId == invoiceId)).map
          (fun it => it.lineTotal)).sum, "Manual"⟩]) ∧
    ((markPaid (aiCreateInvoice (freshDb userId) userId
        { clientName := "client", amount := a, description := "desc",
          dueInDays := none, vatIncluded := none }).1 1 userId now).1.payments =
      [⟨1, a / (1 + defaultVatRate), "Manual"⟩]) ∧
    a / (1 + defaultVatRate) ≠ a := by
  refine ⟨?_, ?_, ?_⟩
  · simp [markPaid, hfind, hnot, hinc]
  · have hparse : createInvoiceParse
        { clientName := "client", amount := a, description := "desc",
          dueInDays := none, vatIncluded := none } =
        some ⟨"client", a, "desc", 30, true⟩ := by
      have hcond : (0 : ℚ) < a ∧ (0 : ℚ) < (none : Option ℚ).getD 30 :=
        ⟨ha, by norm_num⟩
      rw [createInvoiceParse, if_pos hcond]
      rfl
    rw [aiCreateInvoice, hparse]
    simp only [freshDb, getOrCreateClient, countInvoices, markPaid,
      invoiceSubtotal, invoiceVat, invoiceTotal, List.filter, List.mem_singleton,
      if_true]
    norm_num [markPaid, List.filter, defaultVatRate]
    rw [if_neg (by decide : ¬(InvoiceStatus.DRAFT = InvoiceStatus.PAID))]
  · intro h
    rw [defaultVatRate] at h
    field_simp at h
    linarith

/-- Witness for C6 on the concrete draft store and a = 500. -/
theorem markPaid_inclusive_pays_exvat_witness :
    ((markPaid draftDb 1 "u1" 5).1.payments = draftDb.payments ++
      [⟨1, ((draftDb.invoiceItems.filter (fun it => it.invoiceId == 1)).map
          (fun it => it.lineTotal)).sum, "Manual"⟩]) ∧
    ((markPaid (aiCreateInvoice (freshDb "u1") "u1"
        { clientName := "client", amount := 500, description := "desc",
          dueInDays := none, vatIncluded := none }).1 1 "u1" 5).1.payments =
      [⟨1, 500 / (1 + defaultVatRate), "Manual"⟩]) ∧
    (500 : ℚ) / (1 + defaultVatRate) ≠ 500 :=
  markPaid_inclusive_pays_exvat draftDb 1 "u1" 5
    ⟨1, "u1", 0, "INV-0001", true, 15 / 100, .DRAFT, 30, none⟩ 500
    rfl (by decide) rfl (by norm_num)

/-! ## Sequential invoice numbering -/

theorem getOrCreateClient_preserves (db : DB) (u n : String) :
    (getOrCreateClient db u n).1.invoices = db.invoices ∧
    (getOrCreateClient db u n).1.users = db.users := by
  unfold getOrCreateClient
  cases (db.clients.filter (fun c => c.userId == u && c.name == n)).head? <;> simp

theorem countInvoices_insert_own (db : DB) (u : String) (inv : Invoice)
    (h : inv.userId = u) :
    countInvoices { db with invoices := db.invoices ++ [inv] } u =
      countInvoices db u + 1 := by
  simp [countInvoices, List.filter_append, h]

theorem aiCreateInvoice_step (db : DB) (u : String) (p : CreateInvoiceParams)
    (v : CreateInvoiceValid) (hu : u ∈ db.users)
    (hp : createInvoiceParse p = some v) :
    ((aiCreateInvoice db u p).2).number =
      some (mkInvoiceNumber (countInvoices db u + 1)) ∧
    countInvoices (aiCreateInvoice db u p).1 u = countInvoices db u + 1 ∧
    (aiCreateInvoice db u p).1.users = db.users := by
  have hpres := getOrCreateClient_preserves db u v.clientName
  have hcnt : countInvoices (getOrCreateClient db u v.clientName).1 u =
      countInvoices db u := by
    unfold countInvoices
    rw [hpres.1]
  rw [aiCreateInvoice, hp]
  dsimp only
  rw [if_pos hu]
  refine ⟨?_, ?_, ?_⟩
  · simp [CreateInvoiceResult.number, hcnt]
  · simp [countInvoices, List.filter_append, hpres.1]
  · simp [hpres.2]

theorem wfCreateInvoice_step (db : DB) (s : WfCreateInvoiceParams)
    (hu : s.userId ∈ db.users) :
    wfNumber (wfExecuteCreateInvoice db s).2 =
      some (mkInvoiceNumber (countInvoices db s.userId + 1)) ∧
    countInvoices (wfExecuteCreateInvoice db s).1 s.userId =
      countInvoices db s.userId + 1 ∧
    (wfExecuteCreateInvoice db s).1.users = db.users := by
  have hpres := getOrCreateClient_preserves db s.userId s.clientName
  have hcnt : countInvoices (getOrCreateClient db s.userId s.clientName).1 s.userId =
      countInvoices db s.userId := by
    unfold countInvoices
    rw [hpres.1]
  rw [wfExecuteCreateInvoice, if_pos hu]
  refine ⟨?_, ?_, ?_⟩
  · simp [wfNumber, hcnt]
  · simp [countInvoices, List.filter_append, hpres.1]
  · simp [hpres.2]

theorem aiCreateSeq_numbers (u : String) (p : CreateInvoiceParams)
    (v : CreateInvoiceValid) (hp : createInvoiceParse p = some v) :
    ∀ N : ℕ, ∀ db : DB, u ∈ db.users →
      (aiCreateSeq u p N db).2.map CreateInvoiceResult.number =
        (List.range N).map
          (fun k => some (mkInvoiceNumber (countInvoices db u + k + 1))) ∧
      (aiCreateSeq u p N db).1.users = db.users ∧
      countInvoices (aiCreateSeq u p N db).1 u = countInvoices db u + N := by
  intro N
  induction N with
  | zero => intro db hu; simp [aiCreateSeq]
  | succ n ih =>
    intro db hu
    have hstep := aiCreateInvoice_step db u p v hu hp
    have hu2 : u ∈ (aiCreateInvoice db u p).1.users := by
      rw [hstep.2.2]; exact hu
    have ihr := ih (aiCreateInvoice db u p).1 hu2
    rw [aiCreateSeq]
    dsimp only
    refine ⟨?_, ?_, ?_⟩
    · rw [List.map_cons, hstep.1, ihr.1, hstep.2.1, List.range_succ_eq_map,
        List.map_cons, List.map_map]
      refine congrArg₂ _ (by norm_num) ?_
      refine List.map_congr_left ?_
      intro k _
      simp only [Function.comp_apply, Nat.succ_eq_add_one]
      congr 2
      omega
    · rw [ihr.2.1, hstep.2.2]
    · rw [ihr.2.2, hstep.2.1]
      omega

theorem wfCreateSeq_numbers (s : WfCreateInvoiceParams) :
    ∀ N : ℕ, ∀ db : DB, s.userId ∈ db.users →
      (wfCreateSeq s N db).2.map wfNumber =
        (List.range N).map
          (fun k => some (mkInvoiceNumber (countInvoices db s.userId + k + 1))) ∧
      (wfCreateSeq s N db).1.users = db.users ∧
      countInvoices (wfCreateSeq s N db).1 s.userId =
        countInvoices db s.userId + N := by
  intro N
  induction N with
  | zero => intro db hu; simp [wfCreateSeq]
  | succ n ih =>
    intro db hu
    have hstep := wfCreateInvoice_step db s hu
    have hu2 : s.userId ∈ (wfExecuteCreateInvoice db s).1.users := by
      rw [hstep.2.2]; exact hu
    have ihr := ih (wfExecuteCreateInvoice db s).1 hu2
    rw [wfCreateSeq]
    dsimp only
    refine ⟨?_, ?_, ?_⟩
    · rw [List.map_cons, hstep.1, ihr.1, hstep.2.1, List.range_succ_eq_map,
        List.map_cons, List.map_map]
      refine congrArg₂ _ (by norm_num) ?_
      refine List.map_congr_left ?_
      intro k _
      simp only [Function.comp_apply, Nat.succ_eq_add_one]
      congr 2
      omega
    · rw [ihr.2.1, hstep.2.2]
    · rw [ihr.2.2, hstep.2.1]
      omega

/-- C1: starting from a user with no invoices, N sequential create-invoice
calls allocate numbers count + 1 zero-padded to 4 digits after INV-, i.e. the
sequence INV-0001, INV-0002, ..., with no gaps (the k-th call gets number
k) and no repeats (the numbers are pairwise distinct); this holds for the
AIService.createInvoice entry point and for the create_invoice step of the
workflow engine alike. -/
theorem invoice_numbering_sequential (db dbw : DB) (u : String)
    (p : CreateInvoiceParams) (v : CreateInvoiceValid)
    (s : WfCreateInvoiceParams) (N : ℕ)
    (hu : u ∈ db.users) (hc : countInvoices db u = 0)
    (hp : createInvoiceParse p = some v)
    (hw : s.userId ∈ dbw.users) (hwc : countInvoices dbw s.userId = 0) :
    mkInvoiceNumber 1 = "INV-0001" ∧
    (aiCreateSeq u p N db).2.map CreateInvoiceResult.number =
      (List.range N).map (fun k => some (mkInvoiceNumber (k + 1))) ∧
    (wfCreateSeq s N dbw).2.map wfNumber =
      (List.range N).map (fun k => some (mkInvoiceNumber (k + 1))) ∧
    ((List.range N).map (fun k => mkInvoiceNumber (k + 1))).Nodup := by
  have hai := (aiCreateSeq_numbers u p v hp N db hu).1
  have hwf := (wfCreateSeq_numbers s N dbw hw).1
  rw [hc] at hai
  rw [hwc] at hwf
  have hinj : Function.Injective (fun k : ℕ => mkInvoiceNumber (k + 1)) := by
    intro a b h
    have := mkInvoiceNumber_injective h
    omega
  refine ⟨by decide, ?_, ?_, List.Nodup.map hinj (List.nodup_range N)⟩
  · rw [hai]
    refine List.map_congr_left ?_
    intro k _
    norm_num
  · rw [hwf]
    refine List.map_congr_left ?_
    intro k _
    norm_num

/-- Witness for C1: three sequential creations for a fresh user through both
entry points. -/
theorem invoice_numbering_sequential_witness :
    mkInvoiceNumber 1 = "INV-0001" ∧
    (aiCreateSeq "u1"
        { clientName := "ABC Company", amount := 500,
          description := "website design", dueInDays := none,
          vatIncluded := none } 3 (freshDb "u1")).2.map CreateInvoiceResult.number =
      (List.range 3).map (fun k => some (mkInvoiceNumber (k + 1))) ∧
    (wfCreateSeq
        { userId := "u1", clientName := "ABC Company", amount := 500,
          description := "website design", dueInDays := none } 3
        (freshDb "u1")).2.map wfNumber =
      (List.range 3).map (fun k => some (mkInvoiceNumber (k + 1))) ∧
    ((List.range 3).map (fun k => mkInvoiceNumber (k + 1))).Nodup :=
  invoice_numbering_sequential (freshDb "u1") (freshDb "u1") "u1"
    { clientName := "ABC Company", amount := 500,
      description := "website design", dueInDays := none, vatIncluded := none }
    ⟨"ABC Company", 500, "website design", 30, true⟩
    { userId := "u1", clientName := "ABC Company", amount := 500,
      description := "website design", dueInDays := none } 3
    (by decide) rfl (by decide) (by decide) rfl

end EquiLedger
